import Mathlib

set_option linter.unusedVariables false

/-!
Shallow embedding of the service-faas function lifecycle manager
(internal/core/functions/manager.go) together with its two Orchestrator
backends (internal/adapters/docker/client.go and the kubernetes adapter).

The record store (gorm) is modelled as a list of Function records keyed by
id; backend calls and storage outcomes are supplied by explicit oracle
parameters, so every operation is a pure function from the oracles and the
current state to the new state plus its result.  Go strings are modelled as
Lean String (or List Char where character-level work is needed): this is
faithful for the ASCII data the service handles.
-/

namespace Faas

/-- RunResult mirrors functions.RunResult: the outcome of RunWorker.
The host port is an Int because Go's strconv.Atoi can produce any int. -/
structure RunResult where
  containerID : String
  hostPort : Int
  deriving DecidableEq

/-- Function mirrors the gorm model in the functions package.  The CreatedAt
timestamp is not modelled: no operation reads it and no claim concerns it. -/
structure Function where
  id : String
  functionName : String
  handlerPath : String
  codePath : String
  containerID : String
  containerName : String
  hostPort : Int
  status : String
  deriving DecidableEq

/-- db.First(&fn, "id = ?", functionID): first record whose id matches. -/
def findFn (db : List Function) (functionID : String) : Option Function :=
  db.find? (fun f => decide (f.id = functionID))

/-- db.Save(fn): update-by-primary-key of an existing record. -/
def dbSave (db : List Function) (fn : Function) : List Function :=
  db.map (fun g => if g.id = fn.id then fn else g)

/-- The body of the restart loop in RestartRunningFunctions: on RunWorker
failure the status becomes "stopped", on success ContainerID and HostPort are
refreshed (the status stays whatever it was, i.e. "running"). -/
def restartOne (run : String → String → String → Option RunResult)
    (fn : Function) : Function :=
  match run fn.id fn.codePath fn.handlerPath with
  | none => { fn with status := "stopped" }
  | some r => { fn with containerID := r.containerID, hostPort := r.hostPort }

/-- The per-record loop of RestartRunningFunctions: each processed record is
saved back (a failed save is only logged, leaving the store untouched for
that record), and the loop always continues to the next record. -/
def restartLoop (run : String → String → String → Option RunResult)
    (saveOk : String → Bool) : List Function → List Function → List Function
  | [], db => db
  | fn :: rest, db =>
    let fn2 := restartOne run fn
    restartLoop run saveOk rest (if saveOk fn.id then dbSave db fn2 else db)

/-- Manager.RestartRunningFunctions.  queryOk models the initial
status = "running" query (its failure is the only error returned); the second
component is the sequence of RunWorker invocations made, with the arguments
taken from each stored record. -/
def RestartRunningFunctions (run : String → String → String → Option RunResult)
    (saveOk : String → Bool) (queryOk : Bool) (db : List Function) :
    Option (List Function) × List (String × String × String) :=
  if queryOk then
    let running := db.filter (fun f => decide (f.status = "running"))
    (some (restartLoop run saveOk running db),
     running.map (fun f => (f.id, f.codePath, f.handlerPath)))
  else (none, [])

/-- Lower-case hexadecimal digit, as Go's strconv lowerhex table. -/
def hexDigit (n : Nat) : Char :=
  if n < 10 then Char.ofNat (48 + n) else Char.ofNat (87 + n)

/-- Go strconv.Quote of a single rune (the escaping behind fmt.Sprintf "%q"):
quote and backslash are backslash-escaped, printable ASCII is kept literal,
the named control escapes are used where Go has them, and any other control
character becomes a two-digit backslash-x escape.  Runes at or above 0x80 are
modelled as printable and kept literal (Go backslash-u-escapes the
non-printable ones; both forms denote the same character in JSON, so no
theorem below depends on the difference). -/
def goQuoteChar (c : Char) : List Char :=
  if c = '"' then ['\\', '"']
  else if c = '\\' then ['\\', '\\']
  else if 0x20 ≤ c.toNat ∧ c.toNat ≤ 0x7e then [c]
  else if 0x80 ≤ c.toNat then [c]
  else if c = '\x07' then ['\\', 'a']
  else if c = '\x08' then ['\\', 'b']
  else if c = '\x0c' then ['\\', 'f']
  else if c = '\n' then ['\\', 'n']
  else if c = '\r' then ['\\', 'r']
  else if c = '\t' then ['\\', 't']
  else if c = '\x0b' then ['\\', 'v']
  else ['\\', 'x', hexDigit (c.toNat / 16), hexDigit (c.toNat % 16)]

def goQuoteInner : List Char → List Char
  | [] => []
  | c :: rest => goQuoteChar c ++ goQuoteInner rest

/-- Go strconv.Quote: a double-quoted, Go-escaped string literal. -/
def goQuote (s : List Char) : List Char :=
  '"' :: (goQuoteInner s ++ ['"'])

/-- The request body ExecuteFunction builds:
fmt.Sprintf of a left brace, a quoted payload key, a colon-space, the
percent-q quoted payload, and a right brace. -/
def execBody (payload : List Char) : List Char :=
  ('\x7b' :: '"' :: 'p' :: 'a' :: 'y' :: 'l' :: 'o' :: 'a' :: 'd' :: '"' :: ':' :: ' ' :: [])
    ++ goQuote payload ++ ['\x7d']

/-- The single-character JSON escapes (what a JSON decoder accepts after a
backslash, besides the four-hex-digit form). -/
def jsonEscChar (e : Char) : Option Char :=
  if e = '"' then some '"'
  else if e = '\\' then some '\\'
  else if e = '/' then some '/'
  else if e = 'b' then some '\x08'
  else if e = 'f' then some '\x0c'
  else if e = 'n' then some '\n'
  else if e = 'r' then some '\r'
  else if e = 't' then some '\t'
  else none

/-- A JSON string literal body, as a standards-conforming decoder on the
worker side reads it: the input starts right after the opening quote; the
result is the decoded string and the input left after the closing quote.
Unescaped control characters are rejected, as are unknown escapes (Go's
backslash-a, backslash-v and backslash-x among them).  The four-hex-digit
escape form is not modelled: the percent-q body never contains one, so no
theorem depends on it. -/
def parseJSONString : List Char → Option (List Char × List Char)
  | [] => none
  | '\\' :: e :: rest =>
    match jsonEscChar e with
    | some d => (parseJSONString rest).map (fun p => (d :: p.1, p.2))
    | none => none
  | c :: rest =>
    if c = '"' then some ([], rest)
    else if c.toNat < 0x20 then none
    else (parseJSONString rest).map (fun p => (c :: p.1, p.2))

/-- Consume an exact literal, returning what follows it. -/
def dropLiteral : List Char → List Char → Option (List Char)
  | [], s => some s
  | _ :: _, [] => none
  | l :: ls, c :: cs => if l = c then dropLiteral ls cs else none

/-- What the worker's JSON decoder extracts as the payload field from a body
of the exact shape ExecuteFunction produces: the fixed head up to and
including the value's opening quote, then a JSON string literal, then the
closing right brace. -/
def parseExecBody (s : List Char) : Option (List Char) :=
  match dropLiteral ('\x7b' :: '"' :: 'p' :: 'a' :: 'y' :: 'l' :: 'o' :: 'a' :: 'd' ::
      '"' :: ':' :: ' ' :: '"' :: []) s with
  | none => none
  | some rest =>
    match parseJSONString rest with
    | none => none
    | some p => if p.2 = ['\x7d'] then some p.1 else none

/-- The characters whose Go percent-q escaping is also a valid JSON encoding:
printable ASCII, and the five control characters whose Go named escapes
coincide with JSON ones.  Bell (7) and vertical tab (11) get Go escapes
backslash-a and backslash-v, other controls get backslash-x forms; none of
those exist in JSON. -/
def jsonSafeChar (c : Char) : Bool :=
  decide ((0x20 ≤ c.toNat ∧ c.toNat ≤ 0x7e) ∨
    c = '\x08' ∨ c = '\t' ∨ c = '\n' ∨ c = '\x0c' ∨ c = '\r')

/-- The outbound request of the execution proxy. -/
structure WorkerRequest where
  url : String
  contentType : String
  body : List Char
  deriving DecidableEq

/-- A worker's HTTP response: status code and raw body. -/
structure WorkerResponse where
  code : Nat
  body : List Char
  deriving DecidableEq

inductive ExecErr
  | notFound
  | notRunning
  | transport
  | non200 (code : Nat) (body : List Char)
  | badResponse
  deriving DecidableEq

/-- Manager.ExecuteFunction.  net models http.DefaultClient.Do (none is a
transport error); parseResp models the json.Unmarshal of the response body
into the result field.  The middle component is the request actually sent to
the worker, none when no network call was attempted; the record store is
returned unchanged, as the source never writes it here. -/
def ExecuteFunction (net : WorkerRequest → Option WorkerResponse)
    (parseResp : List Char → Option (List Char))
    (db : List Function) (functionID : String) (payload : List Char) :
    Except ExecErr (List Char) × Option WorkerRequest × List Function :=
  match findFn db functionID with
  | none => (.error .notFound, none, db)
  | some fn =>
    if ¬ fn.status = "running" ∨ fn.hostPort = 0 then
      (.error .notRunning, none, db)
    else
      let req : WorkerRequest :=
        { url := "http://localhost:" ++ toString fn.hostPort,
          contentType := "application/json",
          body := execBody payload }
      match net req with
      | none => (.error .transport, some req, db)
      | some resp =>
        if ¬ resp.code = 200 then (.error (.non200 resp.code resp.body), some req, db)
        else
          match parseResp resp.body with
          | none => (.error .badResponse, some req, db)
          | some r => (.ok r, some req, db)

/-- Manager.ListFunctions: db.Find of every record (listOk models the query
outcome). -/
def ListFunctions (listOk : Bool) (db : List Function) : Option (List Function) :=
  if listOk then some db else none

/-- Code storage: the per-function code directories on disk, keyed by
directory path (each holds the single handler.py written by AddFunction). -/
def storePut (cs : List (String × List Char)) (k : String) (v : List Char) :
    List (String × List Char) :=
  (k, v) :: cs.filter (fun e => decide (¬ e.1 = k))

def storeGet (cs : List (String × List Char)) (k : String) : Option (List Char) :=
  (cs.find? (fun e => decide (e.1 = k))).map (fun e => e.2)

inductive AddErr
  | createDir
  | createFile
  | saveCode
  | dbCreate
  | provision
  | dbSaveFinal
  deriving DecidableEq

/-- The fallible steps of AddFunction, other than RunWorker itself: directory
creation, handler-file creation, the io.Copy of the code, the initial
db.Create, the db.Save on the provisioning-failure path (whose error the
source discards), and the final db.Save of the running record. -/
structure AddEnv where
  mkdirOk : Bool
  createFileOk : Bool
  copyOk : Bool
  dbCreateOk : Bool
  runWorker : String → String → String → Option RunResult
  errSaveOk : Bool
  finalSaveOk : Bool

/-- The record AddFunction builds before provisioning (status "creating",
empty handle, zero port — same literal as the source). -/
def creatingRecord (storageDir funcID functionName : String) : Function :=
  { id := funcID, functionName := functionName,
    handlerPath := "function.handler." ++ functionName,
    codePath := storageDir ++ "/" ++ funcID, containerID := "",
    containerName := "faas-worker-" ++ funcID,
    hostPort := 0, status := "creating" }

/-- Manager.AddFunction for a fresh id funcID (rand.ID16 modelled as an
input).  Returns the result, the record store, the code store, and the
handle passed to the best-effort StopAndRemoveContainer on the
final-persist-failure path (none when no teardown was triggered). -/
def AddFunction (env : AddEnv) (storageDir : String)
    (db : List Function) (cs : List (String × List Char))
    (funcID functionName : String) (code : List Char) :
    Except AddErr Function × List Function × List (String × List Char) × Option String :=
  let codeDir := storageDir ++ "/" ++ funcID
  if ¬ env.mkdirOk then (.error .createDir, db, cs, none)
  else if ¬ env.createFileOk then (.error .createFile, db, cs, none)
  else
    -- os.Create truncates the file, io.Copy then writes the uploaded bytes
    let cs1 := storePut cs codeDir []
    if ¬ env.copyOk then (.error .saveCode, db, cs1, none)
    else
      let cs2 := storePut cs codeDir code
      let fn0 := creatingRecord storageDir funcID functionName
      if ¬ env.dbCreateOk then (.error .dbCreate, db, cs2, none)
      else
        let db1 := db ++ [fn0]
        match env.runWorker fn0.id fn0.codePath fn0.handlerPath with
        | none =>
          let fn1 := { fn0 with status := "error" }
          -- the source discards this Save's error
          let db2 := if env.errSaveOk then dbSave db1 fn1 else db1
          (.error .provision, db2, cs2, none)
        | some r =>
          let fn2 := { fn0 with containerID := r.containerID,
                                hostPort := r.hostPort, status := "running" }
          if ¬ env.finalSaveOk then
            (.error .dbSaveFinal, db1, cs2, some fn2.containerID)
          else
            (.ok fn2, dbSave db1 fn2, cs2, none)

inductive RemoveErr
  | notFound
  | dbDelete
  deriving DecidableEq

/-- Manager.RemoveFunction.  tdOk is the teardown outcome and rmCodeOk the
os.RemoveAll outcome — both failures are only logged; deleteOk is the record
delete, the one fatal step.  The last component is the handle passed to
StopAndRemoveContainer (none when the record was absent). -/
def RemoveFunction (tdOk : Bool) (rmCodeOk : Bool) (deleteOk : Bool)
    (db : List Function) (cs : List (String × List Char)) (functionID : String) :
    Except RemoveErr Unit × List Function × List (String × List Char) × Option String :=
  match findFn db functionID with
  | none => (.error .notFound, db, cs, none)
  | some fn =>
    -- StopAndRemoveContainer(fn.ContainerID): tdOk is ignored beyond logging
    let td := some fn.containerID
    let cs1 := if rmCodeOk then cs.filter (fun e => decide (¬ e.1 = fn.codePath)) else cs
    if ¬ deleteOk then (.error .dbDelete, db, cs1, td)
    else (.ok (), db.filter (fun g => decide (¬ g.id = fn.id)), cs1, td)

/-- The loop of CleanupAllFunctions: collect the teardown calls, one per
record with status "running"; a teardown failure is only logged, so the
calls made do not depend on teardown outcomes. -/
def cleanupLoop : List Function → List String
  | [] => []
  | fn :: rest =>
    if fn.status = "running" then fn.containerID :: cleanupLoop rest
    else cleanupLoop rest

/-- Manager.CleanupAllFunctions.  tdOk gives each teardown's outcome (only
logged); listOk is the ListFunctions query.  Returns the result, the
sequence of handles torn down, and the record store, which the source never
writes here. -/
def CleanupAllFunctions (tdOk : String → Bool) (listOk : Bool) (db : List Function) :
    Except Unit Unit × List String × List Function :=
  match ListFunctions listOk db with
  | none => (.error (), [], db)
  | some functions => (.ok (), cleanupLoop functions, db)

/-! ### The ContainerBackend (docker adapter) -/

namespace Docker

inductive DockerErr
  | notFound
  | other
  deriving DecidableEq

/-- The docker daemon's container set, by id. -/
def ContainerRemove (st : List String) (containerID : String) :
    Option DockerErr × List String :=
  if st.contains containerID then (none, st.erase containerID)
  else (some .notFound, st)

/-- docker.Client.StopAndRemoveContainer: empty handle is an immediate nil;
otherwise a force ContainerRemove whose IsErrNotFound outcome is swallowed. -/
def StopAndRemoveContainer (st : List String) (containerID : String) :
    Option DockerErr × List String :=
  if containerID = "" then (none, st)
  else
    match ContainerRemove st containerID with
    | (none, st2) => (none, st2)
    | (some DockerErr.notFound, st2) => (none, st2)
    | (some e, st2) => (some e, st2)

/-- One entry of the inspected NetworkSettings.Ports map. -/
structure PortBinding where
  hostIP : String
  hostPort : List Char
  deriving DecidableEq

/-- Go map indexing returns the zero value — a nil slice — for a missing
key; the docker adapter indexes the result at 0 with no presence check. -/
def lookupPorts (m : List (String × List PortBinding)) (k : String) :
    List PortBinding :=
  match m.find? (fun e => decide (e.1 = k)) with
  | some e => e.2
  | none => []

/-- Go strconv: a nonempty all-digit run. -/
def digitsVal : List Char → Option Nat
  | [] => none
  | [c] => if '0' ≤ c ∧ c ≤ '9' then some (c.toNat - 48) else none
  | c :: rest =>
    if '0' ≤ c ∧ c ≤ '9' then
      (digitsVal rest).map (fun n => (c.toNat - 48) * 10 ^ rest.length + n)
    else none

/-- Go strconv.Atoi: optional sign then digits; none is the error case (the
64-bit range clamp is not modelled — no claim involves ports that long). -/
def goAtoi (s : List Char) : Option Int :=
  match s with
  | [] => none
  | c :: rest =>
    if c = '-' then (digitsVal rest).map (fun n => -(n : Int))
    else if c = '+' then (digitsVal rest).map (fun n => (n : Int))
    else (digitsVal s).map (fun n => (n : Int))

inductive RunErr
  | imageErr
  | createErr
  | startErr
  | inspectErr
  | portIndexOutOfRange
  deriving DecidableEq

/-- The backend outcomes RunWorker consumes: ensureImage, ContainerCreate
(the created id, none on error), ContainerStart, and ContainerInspect's
port map (none on inspect error). -/
structure DockerEnv where
  ensureImageOk : Bool
  createRes : Option String
  startOk : Bool
  inspectPorts : Option (List (String × List PortBinding))

/-- docker.Client.RunWorker.  The pre-removal of a stale same-named
container discards its error and is not observable here.  Indexing the
"8000/tcp" bindings at 0 has no presence check, so an inspect response
without that binding reaches the out-of-range branch; the strconv.Atoi
error is discarded, turning an unparseable HostPort string into port 0. -/
def RunWorker (env : DockerEnv) (funcID codePath handlerPath : String) :
    Except RunErr RunResult :=
  if ¬ env.ensureImageOk then .error .imageErr
  else
    match env.createRes with
    | none => .error .createErr
    | some cid =>
      if ¬ env.startOk then .error .startErr
      else
        match env.inspectPorts with
        | none => .error .inspectErr
        | some ports =>
          match lookupPorts ports "8000/tcp" with
          | [] => .error .portIndexOutOfRange
          | b :: _ =>
            let hostPort := (goAtoi b.hostPort).getD 0
            .ok { containerID := cid, hostPort := hostPort }

end Docker

/-! ### The ClusterBackend (kubernetes adapter) -/

namespace Kubernetes

inductive KOutcome
  | ok
  | notFound
  | err
  deriving DecidableEq

/-- Each resource deletion's backend outcome, by resource name. -/
structure ClusterEnv where
  hpaDel : String → KOutcome
  deployDel : String → KOutcome
  svcDel : String → KOutcome
  cmDel : String → KOutcome

inductive KErr
  | sliceOutOfRange
  | deployErr
  | svcErr
  | cmErr
  deriving DecidableEq

inductive KResource
  | hpa
  | deploy
  | svc
  | cm
  deriving DecidableEq

def appName : String := "faas-worker"

/-- kubernetes.Client.StopAndRemoveContainer.  The funcID is taken by the Go
slice containerID[len(appName)+1:], which has no length guard: a handle
shorter than 12 bytes makes that slice fault at run time (sliceOutOfRange
models the resulting Go run-time fault).  Deletions run in the order HPA,
Deployment (foreground propagation), Service, ConfigMap; each tolerates
IsNotFound; an HPA error is only logged, while a Deployment, Service or
ConfigMap error is returned at once.  The second component is the deletions
attempted, in order. -/
def StopAndRemoveContainer (env : ClusterEnv) (containerID : String) :
    Except KErr Unit × List (KResource × String) :=
  if containerID.length < appName.length + 1 then (.error .sliceOutOfRange, [])
  else
    let funcID := containerID.drop (appName.length + 1)
    let deploymentName := containerID
    let serviceName := "service-" ++ funcID
    let configMapName := "handler-code-" ++ funcID
    let hpaName := "hpa-" ++ funcID
    let t1 := [(KResource.hpa, hpaName)]
    -- an HPA deletion error is logged and ignored
    let _hpaOutcome := env.hpaDel hpaName
    let t2 := t1 ++ [(KResource.deploy, deploymentName)]
    match env.deployDel deploymentName with
    | KOutcome.err => (.error .deployErr, t2)
    | _ =>
      let t3 := t2 ++ [(KResource.svc, serviceName)]
      match env.svcDel serviceName with
      | KOutcome.err => (.error .svcErr, t3)
      | _ =>
        let t4 := t3 ++ [(KResource.cm, configMapName)]
        match env.cmDel configMapName with
        | KOutcome.err => (.error .cmErr, t4)
        | _ => (.ok (), t4)

end Kubernetes

/-- Except to Option, for plugging a backend RunWorker into the manager's
orchestrator parameter. -/
def exceptToOption : Except ε α → Option α
  | .ok a => some a
  | .error _ => none

/-! ### Sample records used by concrete witnesses -/

def fnStopped : Function :=
  { id := "f1", functionName := "echo", handlerPath := "function.handler.echo",
    codePath := "/data/f1", containerID := "c1",
    containerName := "faas-worker-f1", hostPort := 8080, status := "stopped" }

def fnRunning : Function :=
  { id := "f2", functionName := "echo", handlerPath := "function.handler.echo",
    codePath := "/data/f2", containerID := "c2",
    containerName := "faas-worker-f2", hostPort := 9000, status := "running" }

/-! ### Claim C2 -/

/-- Shared helper: the not-running guard of ExecuteFunction fires before any
request is formed. -/
theorem execFn_guard (net : WorkerRequest → Option WorkerResponse)
    (parseResp : List Char → Option (List Char))
    (db : List Function) (functionID : String) (payload : List Char)
    (fn : Function)
    (hfind : findFn db functionID = some fn)
    (h : ¬ fn.status = "running" ∨ fn.hostPort = 0) :
    ExecuteFunction net parseResp db functionID payload
      = (Except.error ExecErr.notRunning, none, db) := by
  unfold ExecuteFunction
  rw [hfind]
  exact if_pos h

/-- Claim C2: for every function id whose record has a status other than
"running" or a zero host port, ExecuteFunction fails with the not-running
error, sends no request to the worker, and leaves the record store
unchanged — in particular for every record with status "stopped" or
"error". -/
theorem executeFunction_not_running
    (net : WorkerRequest → Option WorkerResponse)
    (parseResp : List Char → Option (List Char))
    (db : List Function) (functionID : String) (payload : List Char)
    (fn : Function)
    (hfind : findFn db functionID = some fn)
    (h : ¬ fn.status = "running" ∨ fn.hostPort = 0) :
    ExecuteFunction net parseResp db functionID payload
      = (Except.error ExecErr.notRunning, none, db) :=
  execFn_guard net parseResp db functionID payload fn hfind h

/-- Witness for C2 at a concrete stopped record. -/
theorem executeFunction_not_running_witness :
    findFn [fnStopped] "f1" = some fnStopped
    ∧ (¬ fnStopped.status = "running" ∨ fnStopped.hostPort = 0)
    ∧ ExecuteFunction (fun _ => none) (fun _ => none) [fnStopped] "f1" []
        = (Except.error ExecErr.notRunning, none, [fnStopped]) :=
  ⟨by decide, Or.inl (by decide),
    executeFunction_not_running (fun _ => none) (fun _ => none) [fnStopped] "f1" []
      fnStopped (by decide) (Or.inl (by decide))⟩

/-! ### Claim C9 -/

theorem cleanupLoop_eq (db : List Function) :
    cleanupLoop db
      = (db.filter (fun f => decide (f.status = "running"))).map Function.containerID := by
  induction db with
  | nil => rfl
  | cons a t ih =>
    by_cases h : a.status = "running" <;>
      simp [cleanupLoop, h, ih, List.filter_cons]

/-- Claim C9: CleanupAllFunctions calls teardown exactly for the stored
records with status "running" (in store order, and for no other record), its
result does not depend on the individual teardown outcomes (a failure never
aborts the remaining cleanups), it reports success, and the record store is
returned unmodified. -/
theorem cleanupAllFunctions_spec (tdOk tdOk2 : String → Bool) (db : List Function) :
    CleanupAllFunctions tdOk true db
      = (Except.ok (),
         (db.filter (fun f => decide (f.status = "running"))).map Function.containerID,
         db)
    ∧ CleanupAllFunctions tdOk true db = CleanupAllFunctions tdOk2 true db := by
  refine ⟨?_, rfl⟩
  unfold CleanupAllFunctions ListFunctions
  rw [if_pos rfl]
  simp [cleanupLoop_eq]

/-! ### Claim C6 -/

/-- Claim C6: RemoveFunction fails with the not-found error when no record
exists; otherwise, whenever the record-store delete succeeds it reports
success and the record is gone — for every combination of teardown and
code-deletion outcomes, which it consults only for logging — and it surfaces
the storage error, leaving the store unchanged, exactly when the
record-store delete fails.  The teardown is invoked with the stored
handle in every found case. -/
theorem removeFunction_spec (tdOk rmCodeOk deleteOk : Bool)
    (db : List Function) (cs : List (String × List Char)) (functionID : String) :
    (findFn db functionID = none →
      RemoveFunction tdOk rmCodeOk deleteOk db cs functionID
        = (Except.error RemoveErr.notFound, db, cs, none))
    ∧ (∀ fn, findFn db functionID = some fn →
        (RemoveFunction tdOk rmCodeOk deleteOk db cs functionID).2.2.2
            = some fn.containerID
        ∧ (deleteOk = true →
            (RemoveFunction tdOk rmCodeOk deleteOk db cs functionID).1 = Except.ok ()
            ∧ findFn (RemoveFunction tdOk rmCodeOk deleteOk db cs functionID).2.1
                functionID = none)
        ∧ (deleteOk = false →
            (RemoveFunction tdOk rmCodeOk deleteOk db cs functionID).1
                = Except.error RemoveErr.dbDelete
            ∧ (RemoveFunction tdOk rmCodeOk deleteOk db cs functionID).2.1 = db)) := by
  constructor
  · intro hnone
    unfold RemoveFunction
    rw [hnone]
  · intro fn hfind
    have hid : fn.id = functionID := by
      have := List.find?_some hfind
      simpa using this
    refine ⟨?_, ?_, ?_⟩
    · unfold RemoveFunction
      rw [hfind]
      by_cases hd : deleteOk = true
      · subst hd; simp
      · have hd' : deleteOk = false := by
          cases deleteOk
          · rfl
          · exact absurd rfl hd
        subst hd'; simp
    · intro hd
      subst hd
      unfold RemoveFunction
      rw [hfind]
      simp only [Bool.not_true, if_neg]
      refine ⟨by simp, ?_⟩
      unfold findFn
      rw [List.find?_eq_none]
      intro g hg
      have hmem := List.mem_filter.mp hg
      have hgid : ¬ g.id = fn.id := by simpa using hmem.2
      simp [hid ▸ hgid]
    · intro hd
      subst hd
      unfold RemoveFunction
      rw [hfind]
      simp

/-- Witness for C6: removing a present record with failing teardown and
failing code deletion still deletes the record. -/
theorem removeFunction_spec_witness :
    findFn [fnStopped] "f1" = some fnStopped
    ∧ (RemoveFunction false false true [fnStopped] [] "f1").1 = Except.ok ()
    ∧ findFn (RemoveFunction false false true [fnStopped] [] "f1").2.1 "f1" = none :=
  ⟨by decide,
    (((removeFunction_spec false false true [fnStopped] [] "f1").2 fnStopped
      (by decide)).2.1 rfl).1,
    (((removeFunction_spec false false true [fnStopped] [] "f1").2 fnStopped
      (by decide)).2.1 rfl).2⟩

/-! ### Claims C4 and C5 -/

theorem dbSave_append_single (db : List Function) (fn0 fn1 : Function)
    (hid : fn1.id = fn0.id)
    (hmem : ¬ fn0.id ∈ db.map Function.id) :
    dbSave (db ++ [fn0]) fn1 = db ++ [fn1] := by
  induction db with
  | nil => simp [dbSave, hid]
  | cons a t ih =>
    have ha : ¬ a.id = fn1.id := by
      rw [hid]
      intro he
      exact hmem (List.mem_map.mpr ⟨a, List.mem_cons_self a t, he⟩)
    have ht : ¬ fn0.id ∈ t.map Function.id := by
      intro he
      exact hmem (by simp [he])
    show (if a.id = fn1.id then fn1 else a) :: dbSave (t ++ [fn0]) fn1
        = a :: (t ++ [fn1])
    rw [if_neg ha, ih ht]

theorem findFn_append_single (db : List Function) (fn : Function) (k : String)
    (hmem : ¬ k ∈ db.map Function.id) (hid : fn.id = k) :
    findFn (db ++ [fn]) k = some fn := by
  induction db with
  | nil => simp [findFn, List.find?, hid]
  | cons a t ih =>
    have ha : ¬ a.id = k := by
      intro he
      exact hmem (by
        rw [← he]
        exact List.mem_map.mpr ⟨a, by simp, rfl⟩)
    have ht : ¬ k ∈ t.map Function.id := by
      intro he
      exact hmem (by simp [he])
    simpa [findFn, List.find?, ha] using ih ht

theorem storeGet_storePut (cs : List (String × List Char)) (k : String) (v : List Char) :
    storeGet (storePut cs k v) k = some v := by
  simp [storeGet, storePut, List.find?]

/-- The record AddFunction persists after a provisioning failure. -/
def errorRecord (storageDir funcID functionName : String) : Function :=
  { creatingRecord storageDir funcID functionName with status := "error" }

/-- The record AddFunction persists and returns after a successful
provisioning and final save. -/
def runningRecord (storageDir funcID functionName : String) (r : RunResult) : Function :=
  { creatingRecord storageDir funcID functionName with
      containerID := r.containerID, hostPort := r.hostPort, status := "running" }

/-- The two state components AddFunction reaches on the provisioning-failure
path, given that every storage step works. -/
theorem addFunction_run_fail_eq
    (env : AddEnv) (storageDir : String) (db : List Function)
    (cs : List (String × List Char)) (funcID functionName : String) (code : List Char)
    (hmk : env.mkdirOk = true) (hcf : env.createFileOk = true)
    (hcp : env.copyOk = true) (hdc : env.dbCreateOk = true)
    (hes : env.errSaveOk = true)
    (hrun : env.runWorker funcID (storageDir ++ "/" ++ funcID)
        ("function.handler." ++ functionName) = none) :
    AddFunction env storageDir db cs funcID functionName code
      = (Except.error AddErr.provision,
         dbSave (db ++ [creatingRecord storageDir funcID functionName])
           (errorRecord storageDir funcID functionName),
         storePut cs (storageDir ++ "/" ++ funcID) code, none) := by
  unfold AddFunction
  simp only [creatingRecord, hmk, hcf, hcp, hdc, hes, hrun]
  simp [creatingRecord, errorRecord]

/-- Claim C4: when every storage step works but provisioning fails,
AddFunction persists the record with status "error" and host port 0,
returns the provisioning error, leaves the uploaded code and the record in
place, and a subsequent ExecuteFunction against the id fails with the
not-running error without any network call. -/
theorem addFunction_provision_failure
    (env : AddEnv) (storageDir : String) (db : List Function)
    (cs : List (String × List Char)) (funcID functionName : String) (code : List Char)
    (hmk : env.mkdirOk = true) (hcf : env.createFileOk = true)
    (hcp : env.copyOk = true) (hdc : env.dbCreateOk = true)
    (hes : env.errSaveOk = true)
    (hrun : env.runWorker funcID (storageDir ++ "/" ++ funcID)
        ("function.handler." ++ functionName) = none)
    (hfresh : ¬ funcID ∈ db.map Function.id) :
    ∃ fn1,
      AddFunction env storageDir db cs funcID functionName code
        = (Except.error AddErr.provision, db ++ [fn1],
           storePut cs (storageDir ++ "/" ++ funcID) code, none)
      ∧ fn1.status = "error" ∧ fn1.hostPort = 0 ∧ fn1.id = funcID
      ∧ findFn (db ++ [fn1]) funcID = some fn1
      ∧ storeGet (storePut cs (storageDir ++ "/" ++ funcID) code)
          (storageDir ++ "/" ++ funcID) = some code
      ∧ ∀ net parseResp payload,
          ExecuteFunction net parseResp (db ++ [fn1]) funcID payload
            = (Except.error ExecErr.notRunning, none, db ++ [fn1]) := by
  have hmem2 : ¬ (creatingRecord storageDir funcID functionName).id
      ∈ db.map Function.id := hfresh
  have hfind2 : findFn (db ++ [errorRecord storageDir funcID functionName]) funcID
      = some (errorRecord storageDir funcID functionName) :=
    findFn_append_single db (errorRecord storageDir funcID functionName) funcID
      hfresh rfl
  refine ⟨errorRecord storageDir funcID functionName,
    ?_, rfl, rfl, rfl, hfind2, storeGet_storePut cs _ code, ?_⟩
  · rw [addFunction_run_fail_eq env storageDir db cs funcID functionName code
      hmk hcf hcp hdc hes hrun]
    rw [dbSave_append_single db (creatingRecord storageDir funcID functionName)
      (errorRecord storageDir funcID functionName) rfl hmem2]
  · intro net parseResp payload
    exact execFn_guard net parseResp _ funcID payload _
      hfind2 (Or.inl (by simp [errorRecord, creatingRecord]))

/-- A concrete AddFunction environment whose provisioning always fails. -/
def provisionFailEnv : AddEnv :=
  { mkdirOk := true, createFileOk := true, copyOk := true, dbCreateOk := true,
    runWorker := fun _ _ _ => none, errSaveOk := true, finalSaveOk := true }

/-- Witness for C4 on an empty store with an always-failing orchestrator. -/
theorem addFunction_provision_failure_witness :
    (provisionFailEnv.mkdirOk = true ∧ provisionFailEnv.errSaveOk = true
      ∧ provisionFailEnv.runWorker "f9" ("/data" ++ "/" ++ "f9")
          ("function.handler." ++ "echo") = none
      ∧ ¬ "f9" ∈ ([] : List Function).map Function.id)
    ∧ ∃ fn1,
        AddFunction provisionFailEnv "/data" [] [] "f9" "echo" ['x']
          = (Except.error AddErr.provision, [] ++ [fn1],
             storePut [] ("/data" ++ "/" ++ "f9") ['x'], none)
        ∧ fn1.status = "error" ∧ fn1.hostPort = 0 ∧ fn1.id = "f9"
        ∧ findFn ([] ++ [fn1]) "f9" = some fn1
        ∧ storeGet (storePut [] ("/data" ++ "/" ++ "f9") ['x'])
            ("/data" ++ "/" ++ "f9") = some ['x']
        ∧ ∀ net parseResp payload,
            ExecuteFunction net parseResp ([] ++ [fn1]) "f9" payload
              = (Except.error ExecErr.notRunning, none, [] ++ [fn1]) :=
  ⟨⟨rfl, rfl, rfl, by decide⟩,
    addFunction_provision_failure provisionFailEnv "/data" [] [] "f9" "echo" ['x']
      rfl rfl rfl rfl rfl rfl (by decide)⟩

/-- Claim C5: when provisioning succeeds, a failing final persist triggers
the best-effort teardown with the just-created backend handle and returns
the storage error, while a succeeding final persist returns a record with
status "running" carrying the backend handle and endpoint, stored in the
record store. -/
theorem addFunction_final_persist
    (env : AddEnv) (storageDir : String) (db : List Function)
    (cs : List (String × List Char)) (funcID functionName : String)
    (code : List Char) (r : RunResult)
    (hmk : env.mkdirOk = true) (hcf : env.createFileOk = true)
    (hcp : env.copyOk = true) (hdc : env.dbCreateOk = true)
    (hrun : env.runWorker funcID (storageDir ++ "/" ++ funcID)
        ("function.handler." ++ functionName) = some r)
    (hfresh : ¬ funcID ∈ db.map Function.id) :
    (env.finalSaveOk = false →
      (AddFunction env storageDir db cs funcID functionName code).1
          = Except.error AddErr.dbSaveFinal
      ∧ (AddFunction env storageDir db cs funcID functionName code).2.2.2
          = some r.containerID)
    ∧ (env.finalSaveOk = true →
      ∃ fn2,
        (AddFunction env storageDir db cs funcID functionName code).1
            = Except.ok fn2
        ∧ fn2.status = "running" ∧ fn2.containerID = r.containerID
        ∧ fn2.hostPort = r.hostPort ∧ fn2.id = funcID
        ∧ findFn (AddFunction env storageDir db cs funcID functionName code).2.1
            funcID = some fn2) := by
  constructor
  · intro hfs
    have key : AddFunction env storageDir db cs funcID functionName code
        = (Except.error AddErr.dbSaveFinal,
           db ++ [creatingRecord storageDir funcID functionName],
           storePut cs (storageDir ++ "/" ++ funcID) code,
           some r.containerID) := by
      unfold AddFunction
      simp only [creatingRecord, hmk, hcf, hcp, hdc, hfs, hrun]
      simp [creatingRecord]
    rw [key]
    exact ⟨rfl, rfl⟩
  · intro hfs
    have key : AddFunction env storageDir db cs funcID functionName code
        = (Except.ok (runningRecord storageDir funcID functionName r),
           dbSave (db ++ [creatingRecord storageDir funcID functionName])
             (runningRecord storageDir funcID functionName r),
           storePut cs (storageDir ++ "/" ++ funcID) code, none) := by
      unfold AddFunction
      simp only [creatingRecord, hmk, hcf, hcp, hdc, hfs, hrun]
      simp [creatingRecord, runningRecord]
    have hmem2 : ¬ (creatingRecord storageDir funcID functionName).id
        ∈ db.map Function.id := hfresh
    refine ⟨runningRecord storageDir funcID functionName r,
      ?_, rfl, rfl, rfl, rfl, ?_⟩
    · rw [key]
    · rw [key]
      show findFn (dbSave (db ++ [creatingRecord storageDir funcID functionName])
          (runningRecord storageDir funcID functionName r)) funcID = _
      rw [dbSave_append_single db (creatingRecord storageDir funcID functionName)
        (runningRecord storageDir funcID functionName r) rfl hmem2]
      exact findFn_append_single db (runningRecord storageDir funcID functionName r)
        funcID hfresh rfl

/-- A concrete AddFunction environment whose provisioning succeeds with a
fixed handle and port. -/
def provisionOkEnv : AddEnv :=
  { mkdirOk := true, createFileOk := true, copyOk := true, dbCreateOk := true,
    runWorker := fun _ _ _ => some { containerID := "cid7", hostPort := 7070 },
    errSaveOk := true, finalSaveOk := true }

/-- Witness for C5 with a succeeding persist and a one-record result. -/
theorem addFunction_final_persist_witness :
    (provisionOkEnv.mkdirOk = true
      ∧ provisionOkEnv.runWorker "f7" ("/data" ++ "/" ++ "f7")
          ("function.handler." ++ "echo")
          = some { containerID := "cid7", hostPort := 7070 }
      ∧ ¬ "f7" ∈ ([] : List Function).map Function.id)
    ∧ ∃ fn2,
        (AddFunction provisionOkEnv "/data" [] [] "f7" "echo" ['x']).1
          = Except.ok fn2
        ∧ fn2.status = "running" ∧ fn2.containerID = "cid7"
        ∧ fn2.hostPort = 7070 ∧ fn2.id = "f7"
        ∧ findFn (AddFunction provisionOkEnv "/data" [] [] "f7" "echo" ['x']).2.1
            "f7" = some fn2 :=
  ⟨⟨rfl, rfl, by decide⟩,
    (addFunction_final_persist provisionOkEnv "/data" [] [] "f7" "echo" ['x']
      { containerID := "cid7", hostPort := 7070 }
      rfl rfl rfl rfl rfl (by decide)).2 rfl⟩



/-! ### Claim C1 -/

theorem restartOne_id (run : String → String → String → Option RunResult)
    (fn : Function) : (restartOne run fn).id = fn.id := by
  unfold restartOne
  cases run fn.id fn.codePath fn.handlerPath <;> rfl

theorem dbSave_cons (a : Function) (db : List Function) (fn : Function) :
    dbSave (a :: db) fn = (if a.id = fn.id then fn else a) :: dbSave db fn := rfl

theorem dbSave_not_mem (db : List Function) (fn : Function)
    (h : ¬ fn.id ∈ db.map Function.id) : dbSave db fn = db := by
  induction db with
  | nil => rfl
  | cons a t ih =>
    have ha : ¬ a.id = fn.id := by
      intro he
      exact h (by
        rw [← he]
        exact List.mem_map.mpr ⟨a, by simp, rfl⟩)
    have ht : ¬ fn.id ∈ t.map Function.id := by
      intro he
      exact h (by simp [he])
    rw [dbSave_cons, if_neg ha, ih ht]

theorem restartLoop_cons (run : String → String → String → Option RunResult)
    (so : String → Bool) (fn : Function) (rest db : List Function) :
    restartLoop run so (fn :: rest) db
      = restartLoop run so rest
          (if so fn.id then dbSave db (restartOne run fn) else db) := rfl

theorem restartLoop_head_skip (run : String → String → String → Option RunResult)
    (so : String → Bool) (todo : List Function) (a : Function) (db : List Function)
    (h : ∀ f ∈ todo, ¬ f.id = a.id) :
    restartLoop run so todo (a :: db) = a :: restartLoop run so todo db := by
  induction todo generalizing db with
  | nil => rfl
  | cons fn rest ih =>
    have hfn : ¬ fn.id = a.id := h fn (by simp)
    have hrest : ∀ f ∈ rest, ¬ f.id = a.id := fun f hf => h f (by simp [hf])
    rw [restartLoop_cons, restartLoop_cons]
    by_cases hs : so fn.id = true
    · rw [if_pos hs, if_pos hs, dbSave_cons]
      have ha2 : ¬ a.id = (restartOne run fn).id := by
        rw [restartOne_id]
        intro he
        exact hfn he.symm
      rw [if_neg ha2]
      exact ih _ hrest
    · rw [if_neg hs, if_neg hs]
      exact ih _ hrest

/-- What one pass of the restart loop does to a single stored record. -/
def restartStep (run : String → String → String → Option RunResult)
    (f : Function) : Function :=
  if f.status = "running" then restartOne run f else f

theorem restartLoop_filter_running (run : String → String → String → Option RunResult)
    (db : List Function) (hnd : (db.map Function.id).Nodup) :
    restartLoop run (fun _ => true)
        (db.filter (fun f => decide (f.status = "running"))) db
      = db.map (restartStep run) := by
  induction db with
  | nil => rfl
  | cons a t ih =>
    rw [List.map_cons, List.nodup_cons] at hnd
    obtain ⟨ha, ht⟩ := hnd
    have hskip : ∀ f ∈ t.filter (fun f => decide (f.status = "running")),
        ¬ f.id = a.id := by
      intro f hf he
      exact ha (by
        rw [← he]
        exact List.mem_map.mpr ⟨f, List.mem_of_mem_filter hf, rfl⟩)
    by_cases hs : a.status = "running"
    · rw [List.filter_cons_of_pos (by simp [hs]), restartLoop_cons,
        if_pos rfl, dbSave_cons, if_pos (restartOne_id run a).symm,
        dbSave_not_mem t (restartOne run a) (by rw [restartOne_id]; exact ha),
        restartLoop_head_skip run (fun _ => true) _ (restartOne run a) t
          (by rw [restartOne_id]; exact hskip),
        ih ht, List.map_cons]
      unfold restartStep
      rw [if_pos hs]
    · rw [List.filter_cons_of_neg (by simp [hs]),
        restartLoop_head_skip run (fun _ => true) _ a t hskip,
        ih ht, List.map_cons]
      unfold restartStep
      rw [if_neg hs]

theorem countP_map_fn (g : Function → Function) (p : Function → Bool)
    (db : List Function) :
    (db.map g).countP p = db.countP (fun f => p (g f)) := by
  induction db with
  | nil => rfl
  | cons a t ih => simp [List.countP_cons, ih]

theorem countP_congr_fn (db : List Function) (p q : Function → Bool)
    (h : ∀ f ∈ db, p f = q f) : db.countP p = db.countP q := by
  induction db with
  | nil => rfl
  | cons a t ih =>
    rw [List.countP_cons, List.countP_cons, h a (by simp),
      ih (fun f hf => h f (by simp [hf]))]

theorem countP_split (db : List Function) (p q : Function → Bool) :
    db.countP p
      = db.countP (fun f => p f && q f) + db.countP (fun f => p f && !(q f)) := by
  induction db with
  | nil => rfl
  | cons a t ih =>
    simp only [List.countP_cons]
    cases hp : p a <;> cases hq : q a <;> simp [hp, hq, ih] <;> omega

theorem countP_or_disjoint (db : List Function) (p q : Function → Bool)
    (h : ∀ f ∈ db, ¬ (p f = true ∧ q f = true)) :
    db.countP (fun f => p f || q f) = db.countP p + db.countP q := by
  induction db with
  | nil => rfl
  | cons a t ih =>
    have ht : ∀ f ∈ t, ¬ (p f = true ∧ q f = true) := fun f hf => h f (by simp [hf])
    simp only [List.countP_cons]
    cases hp : p a <;> cases hq : q a <;> simp [hp, hq, ih ht] <;> first
      | omega
      | exact absurd ⟨hp, hq⟩ (h a (by simp))

/-- Claim C1: over a store with unique ids, RestartRunningFunctions
re-invokes RunWorker once per record with status "running", passing that
record's stored code location and handler reference; it rewrites each such
record through restartStep (refreshed handle and endpoint on success, status
"stopped" on failure) and leaves the others alone; afterwards the store has
exactly N minus M records with status "running" and the stopped count has
grown by M, where N counts the previously running records and M those whose
re-provisioning failed; and the call reports success for the whole batch. -/
theorem restartRunningFunctions_batch
    (run : String → String → String → Option RunResult) (db : List Function)
    (hnd : (db.map Function.id).Nodup) :
    (RestartRunningFunctions run (fun _ => true) true db).1
        = some (db.map (restartStep run))
    ∧ (RestartRunningFunctions run (fun _ => true) true db).2
        = (db.filter (fun f => decide (f.status = "running"))).map
            (fun f => (f.id, f.codePath, f.handlerPath))
    ∧ (db.map (restartStep run)).countP (fun f => decide (f.status = "running"))
        = db.countP (fun f => decide (f.status = "running"))
          - db.countP (fun f => decide (f.status = "running")
              && (run f.id f.codePath f.handlerPath).isNone)
    ∧ (db.map (restartStep run)).countP (fun f => decide (f.status = "stopped"))
        = db.countP (fun f => decide (f.status = "stopped"))
          + db.countP (fun f => decide (f.status = "running")
              && (run f.id f.codePath f.handlerPath).isNone)
    ∧ ∀ f ∈ db, f.status = "running" →
        ∀ r, run f.id f.codePath f.handlerPath = some r →
          (restartStep run f).status = "running"
          ∧ (restartStep run f).containerID = r.containerID
          ∧ (restartStep run f).hostPort = r.hostPort := by
  refine ⟨?_, ?_, ?_, ?_, ?_⟩
  · unfold RestartRunningFunctions
    rw [if_pos rfl]
    exact congrArg some (restartLoop_filter_running run db hnd)
  · unfold RestartRunningFunctions
    rw [if_pos rfl]
  · rw [countP_map_fn]
    rw [countP_congr_fn db _
      (fun f => decide (f.status = "running")
        && (run f.id f.codePath f.handlerPath).isSome) ?_]
    · rw [countP_congr_fn db
        (fun f => decide (f.status = "running")
          && (run f.id f.codePath f.handlerPath).isNone)
        (fun f => decide (f.status = "running")
          && !((run f.id f.codePath f.handlerPath).isSome)) ?_]
      · have hsplit := countP_split db (fun f => decide (f.status = "running"))
          (fun f => (run f.id f.codePath f.handlerPath).isSome)
        omega
      · intro f hf
        cases hr : run f.id f.codePath f.handlerPath <;> simp [hr]
    · intro f hf
      by_cases hs : f.status = "running"
      · cases hr : run f.id f.codePath f.handlerPath <;>
          simp [restartStep, restartOne, hs, hr]
      · simp [restartStep, hs]
  · rw [countP_map_fn]
    rw [countP_congr_fn db _
      (fun f => (decide (f.status = "running")
          && (run f.id f.codePath f.handlerPath).isNone)
        || decide (f.status = "stopped")) ?_]
    · rw [countP_or_disjoint db _ _ ?_]
      · omega
      · intro f hf hpq
        have h1 : f.status = "running" := by
          have := hpq.1
          simp only [Bool.and_eq_true, decide_eq_true_eq] at this
          exact this.1
        have h2 : f.status = "stopped" := by
          have := hpq.2
          simpa using this
        rw [h1] at h2
        exact absurd h2 (by decide)
    · intro f hf
      by_cases hs : f.status = "running"
      · cases hr : run f.id f.codePath f.handlerPath <;>
          simp [restartStep, restartOne, hs, hr]
      · simp [restartStep, hs]
  · intro f hf hs r hr
    refine ⟨?_, ?_, ?_⟩ <;> simp [restartStep, restartOne, hs, hr]

/-- A second running record for the C1 witness. -/
def fnRunning2 : Function :=
  { id := "f3", functionName := "add", handlerPath := "function.handler.add",
    codePath := "/data/f3", containerID := "c3",
    containerName := "faas-worker-f3", hostPort := 9100, status := "running" }

/-- A restart oracle that succeeds for f2 and fails for every other id. -/
def runOracle : String → String → String → Option RunResult :=
  fun i _ _ =>
    if i = "f2" then some { containerID := "c2new", hostPort := 9999 } else none

/-- Witness for C1: two running records of which one fails to restart,
plus one stopped record. -/
theorem restartRunningFunctions_batch_witness :
    (([fnRunning, fnStopped, fnRunning2].map Function.id).Nodup)
    ∧ ((RestartRunningFunctions runOracle (fun _ => true) true
          [fnRunning, fnStopped, fnRunning2]).1
        = some ([fnRunning, fnStopped, fnRunning2].map (restartStep runOracle))) :=
  ⟨by decide,
    (restartRunningFunctions_batch runOracle [fnRunning, fnStopped, fnRunning2]
      (by decide)).1⟩

/-! ### Claim C3 -/

/-- A cluster backend on which every deletion reports success. -/
def clusterEnvAllOk : Kubernetes.ClusterEnv :=
  { hpaDel := fun _ => Kubernetes.KOutcome.ok,
    deployDel := fun _ => Kubernetes.KOutcome.ok,
    svcDel := fun _ => Kubernetes.KOutcome.ok,
    cmDel := fun _ => Kubernetes.KOutcome.ok }

/-- Claim C3 (code bug evidence): the ContainerBackend teardown is a no-op
success on the empty handle and tolerates a second call on the same handle,
but the ClusterBackend teardown called with the empty handle reaches the
unguarded Go slice containerID[len(appName)+1:] and faults instead of
returning the no-op success the contract requires — even on a backend where
every deletion would succeed. -/
theorem teardown_empty_handle_divergence :
    (Docker.StopAndRemoveContainer ["c1"] "").1 = none
    ∧ (Docker.StopAndRemoveContainer ["c1"] "").2 = ["c1"]
    ∧ (Docker.StopAndRemoveContainer ["c1"] "c1").1 = none
    ∧ (Docker.StopAndRemoveContainer
        (Docker.StopAndRemoveContainer ["c1"] "c1").2 "c1").1 = none
    ∧ (Kubernetes.StopAndRemoveContainer clusterEnvAllOk "").1
        = Except.error Kubernetes.KErr.sliceOutOfRange
    ∧ (Kubernetes.StopAndRemoveContainer clusterEnvAllOk "").2 = [] :=
  ⟨rfl, rfl, rfl, rfl, rfl, rfl⟩

/-! ### Claim C7 -/

/-- A cluster backend whose Service deletion fails with an unexpected
error while every other deletion succeeds. -/
def clusterEnvSvcFail : Kubernetes.ClusterEnv :=
  { hpaDel := fun _ => Kubernetes.KOutcome.ok,
    deployDel := fun _ => Kubernetes.KOutcome.ok,
    svcDel := fun _ => Kubernetes.KOutcome.err,
    cmDel := fun _ => Kubernetes.KOutcome.ok }

/-- Counterexample to claim C7 as stated: an unexpected network-object
(Service) deletion error is surfaced by the ClusterBackend teardown and
aborts the config-object deletion, so the teardown does not continue past
every non-workload deletion failure and the workload deletion's error is not
the only one surfaced. -/
theorem clusterTeardown_svc_error_surfaced :
    Kubernetes.StopAndRemoveContainer clusterEnvSvcFail "faas-worker-x"
      = (Except.error Kubernetes.KErr.svcErr,
         [(Kubernetes.KResource.hpa, "hpa-x"),
          (Kubernetes.KResource.deploy, "faas-worker-x"),
          (Kubernetes.KResource.svc, "service-x")]) := rfl

/-- The ClusterBackend teardown with the length guard passed, written
without the source's local names (zeta-reduced), for rewriting. -/
theorem clusterTeardown_unfold (env : Kubernetes.ClusterEnv) (containerID : String)
    (hnot : ¬ containerID.length < Kubernetes.appName.length + 1) :
    Kubernetes.StopAndRemoveContainer env containerID
      = (match env.deployDel containerID with
         | Kubernetes.KOutcome.err =>
           (Except.error Kubernetes.KErr.deployErr,
            [(Kubernetes.KResource.hpa,
              "hpa-" ++ containerID.drop (Kubernetes.appName.length + 1)),
             (Kubernetes.KResource.deploy, containerID)])
         | _ =>
           match env.svcDel
               ("service-" ++ containerID.drop (Kubernetes.appName.length + 1)) with
           | Kubernetes.KOutcome.err =>
             (Except.error Kubernetes.KErr.svcErr,
              [(Kubernetes.KResource.hpa,
                "hpa-" ++ containerID.drop (Kubernetes.appName.length + 1)),
               (Kubernetes.KResource.deploy, containerID),
               (Kubernetes.KResource.svc,
                "service-" ++ containerID.drop (Kubernetes.appName.length + 1))])
           | _ =>
             match env.cmDel
                 ("handler-code-" ++ containerID.drop (Kubernetes.appName.length + 1)) with
             | Kubernetes.KOutcome.err =>
               (Except.error Kubernetes.KErr.cmErr,
                [(Kubernetes.KResource.hpa,
                  "hpa-" ++ containerID.drop (Kubernetes.appName.length + 1)),
                 (Kubernetes.KResource.deploy, containerID),
                 (Kubernetes.KResource.svc,
                  "service-" ++ containerID.drop (Kubernetes.appName.length + 1)),
                 (Kubernetes.KResource.cm,
                  "handler-code-" ++ containerID.drop (Kubernetes.appName.length + 1))])
             | _ =>
               (Except.ok (),
                [(Kubernetes.KResource.hpa,
                  "hpa-" ++ containerID.drop (Kubernetes.appName.length + 1)),
                 (Kubernetes.KResource.deploy, containerID),
                 (Kubernetes.KResource.svc,
                  "service-" ++ containerID.drop (Kubernetes.appName.length + 1)),
                 (Kubernetes.KResource.cm,
                  "handler-code-" ++ containerID.drop (Kubernetes.appName.length + 1))])) := by
  unfold Kubernetes.StopAndRemoveContainer
  rw [if_neg hnot]
  rfl

/-- Claim C7 amended: for every handle long enough for the Go slice, the
ClusterBackend teardown attempts the deletions in the order autoscaling
policy, workload, network object, config object, with names derived from the
handle; "not found" is tolerated everywhere and an autoscaling-policy
deletion failure never affects the result; but an unexpected workload,
network-object or config-object deletion error is surfaced at once, aborting
the deletions after it. -/
theorem clusterTeardown_order (env : Kubernetes.ClusterEnv) (containerID : String)
    (hlen : Kubernetes.appName.length + 1 ≤ containerID.length) :
    let funcID := containerID.drop (Kubernetes.appName.length + 1)
    let full := [(Kubernetes.KResource.hpa, "hpa-" ++ funcID),
                 (Kubernetes.KResource.deploy, containerID),
                 (Kubernetes.KResource.svc, "service-" ++ funcID),
                 (Kubernetes.KResource.cm, "handler-code-" ++ funcID)]
    (env.deployDel containerID = Kubernetes.KOutcome.err →
      Kubernetes.StopAndRemoveContainer env containerID
        = (Except.error Kubernetes.KErr.deployErr, full.take 2))
    ∧ (¬ env.deployDel containerID = Kubernetes.KOutcome.err →
        env.svcDel ("service-" ++ funcID) = Kubernetes.KOutcome.err →
        Kubernetes.StopAndRemoveContainer env containerID
          = (Except.error Kubernetes.KErr.svcErr, full.take 3))
    ∧ (¬ env.deployDel containerID = Kubernetes.KOutcome.err →
        ¬ env.svcDel ("service-" ++ funcID) = Kubernetes.KOutcome.err →
        env.cmDel ("handler-code-" ++ funcID) = Kubernetes.KOutcome.err →
        Kubernetes.StopAndRemoveContainer env containerID
          = (Except.error Kubernetes.KErr.cmErr, full))
    ∧ (¬ env.deployDel containerID = Kubernetes.KOutcome.err →
        ¬ env.svcDel ("service-" ++ funcID) = Kubernetes.KOutcome.err →
        ¬ env.cmDel ("handler-code-" ++ funcID) = Kubernetes.KOutcome.err →
        Kubernetes.StopAndRemoveContainer env containerID = (Except.ok (), full)) := by
  intro funcID full
  have hnot : ¬ containerID.length < Kubernetes.appName.length + 1 := by omega
  rw [clusterTeardown_unfold env containerID hnot]
  refine ⟨?_, ?_, ?_, ?_⟩
  · intro hd
    rw [hd]
    try rfl
  · intro hd hsv
    cases hdep : env.deployDel containerID with
    | err => exact absurd hdep hd
    | ok => (rw [hsv]; try rfl)
    | notFound => (rw [hsv]; try rfl)
  · intro hd hsv hcm
    cases hdep : env.deployDel containerID with
    | err => exact absurd hdep hd
    | ok =>
      cases hs2 : env.svcDel ("service-" ++ funcID) with
      | err => exact absurd hs2 hsv
      | ok => (rw [hcm]; try rfl)
      | notFound => (rw [hcm]; try rfl)
    | notFound =>
      cases hs2 : env.svcDel ("service-" ++ funcID) with
      | err => exact absurd hs2 hsv
      | ok => (rw [hcm]; try rfl)
      | notFound => (rw [hcm]; try rfl)
  · intro hd hsv hcm
    cases hdep : env.deployDel containerID with
    | err => exact absurd hdep hd
    | ok =>
      cases hs2 : env.svcDel ("service-" ++ funcID) with
      | err => exact absurd hs2 hsv
      | ok =>
        cases hc2 : env.cmDel ("handler-code-" ++ funcID) with
        | err => exact absurd hc2 hcm
        | ok => rfl
        | notFound => rfl
      | notFound =>
        cases hc2 : env.cmDel ("handler-code-" ++ funcID) with
        | err => exact absurd hc2 hcm
        | ok => rfl
        | notFound => rfl
    | notFound =>
      cases hs2 : env.svcDel ("service-" ++ funcID) with
      | err => exact absurd hs2 hsv
      | ok =>
        cases hc2 : env.cmDel ("handler-code-" ++ funcID) with
        | err => exact absurd hc2 hcm
        | ok => rfl
        | notFound => rfl
      | notFound =>
        cases hc2 : env.cmDel ("handler-code-" ++ funcID) with
        | err => exact absurd hc2 hcm
        | ok => rfl
        | notFound => rfl

/-- Witness for the amended C7 on an all-succeeding backend: all four
deletions run, in order, and the call reports success. -/
theorem clusterTeardown_order_witness :
    (Kubernetes.appName.length + 1 ≤ ("faas-worker-x" : String).length)
    ∧ Kubernetes.StopAndRemoveContainer clusterEnvAllOk "faas-worker-x"
        = (Except.ok (),
           [(Kubernetes.KResource.hpa, "hpa-x"),
            (Kubernetes.KResource.deploy, "faas-worker-x"),
            (Kubernetes.KResource.svc, "service-x"),
            (Kubernetes.KResource.cm, "handler-code-x")]) :=
  ⟨by decide,
    (clusterTeardown_order clusterEnvAllOk "faas-worker-x" (by decide)).2.2.2
      (by decide) (by decide) (by decide)⟩

/-! ### Claim C10 -/

/-- An inspect response whose port map has a binding for 8000/tcp whose
HostPort string is not numeric. -/
def badPortEnv : Docker.DockerEnv :=
  { ensureImageOk := true, createRes := some "cid1", startOk := true,
    inspectPorts := some [("8000/tcp",
      [{ hostIP := "0.0.0.0", hostPort := ['d', 'y', 'n'] }])] }

/-- An inspect response whose port map has no binding for 8000/tcp. -/
def noBindingEnv : Docker.DockerEnv :=
  { ensureImageOk := true, createRes := some "cid1", startOk := true,
    inspectPorts := some [] }

/-- The manager wired to the docker backend that answers with badPortEnv. -/
def c10AddEnv : AddEnv :=
  { mkdirOk := true, createFileOk := true, copyOk := true, dbCreateOk := true,
    runWorker := fun i c h => exceptToOption (Docker.RunWorker badPortEnv i c h),
    errSaveOk := true, finalSaveOk := true }

/-- The record the C10 scenario persists: running, but with host port 0. -/
def portZeroRecord : Function :=
  { id := "f1", functionName := "echo",
    handlerPath := "function.handler.echo", codePath := "/data/f1",
    containerID := "cid1", containerName := "faas-worker-f1",
    hostPort := 0, status := "running" }

/-- Claim C10: the docker RunWorker indexes the inspected port map without a
presence check — a response without the 8000/tcp binding reaches the
out-of-range branch — and discards the port parse error, so a response
carrying an unparseable HostPort string yields port 0; AddFunction then
succeeds and persists a record with status "running" and host port 0, and
against that record every ExecuteFunction fails with the not-running error
without any network call. -/
theorem runWorker_port_zero_running_record :
    Docker.RunWorker noBindingEnv "f1" "/data/f1" "function.handler.echo"
        = Except.error Docker.RunErr.portIndexOutOfRange
    ∧ Docker.RunWorker badPortEnv "f1" "/data/f1" "function.handler.echo"
        = Except.ok { containerID := "cid1", hostPort := 0 }
    ∧ ∃ fn,
        (AddFunction c10AddEnv "/data" [] [] "f1" "echo" ['x']).1 = Except.ok fn
        ∧ fn.status = "running" ∧ fn.hostPort = 0
        ∧ findFn (AddFunction c10AddEnv "/data" [] [] "f1" "echo" ['x']).2.1 "f1"
            = some fn
        ∧ ∀ net parseResp payload,
            ExecuteFunction net parseResp
                (AddFunction c10AddEnv "/data" [] [] "f1" "echo" ['x']).2.1
                "f1" payload
              = (Except.error ExecErr.notRunning, none,
                 (AddFunction c10AddEnv "/data" [] [] "f1" "echo" ['x']).2.1) := by
  refine ⟨rfl, rfl, ?_⟩
  refine ⟨portZeroRecord, rfl, rfl, rfl, by decide, ?_⟩
  intro net parseResp payload
  exact execFn_guard net parseResp _ "f1" payload portZeroRecord (by decide)
    (Or.inr (by decide))

/-! ### Claim C8 -/

theorem parseJSONString_esc (e d : Char) (tail : List Char)
    (he : jsonEscChar e = some d) :
    parseJSONString ('\\' :: e :: tail)
      = (parseJSONString tail).map (fun p => (d :: p.1, p.2)) := by
  show (match jsonEscChar e with
    | some d2 => (parseJSONString tail).map
        (fun p : List Char × List Char => (d2 :: p.1, p.2))
    | none => none)
    = (parseJSONString tail).map (fun p => (d :: p.1, p.2))
  rw [he]

theorem parseJSONString_plain (c : Char) (tail : List Char)
    (h1 : ¬ c = '"') (h2 : ¬ c = '\\') (h3 : ¬ c.toNat < 0x20) :
    parseJSONString (c :: tail)
      = (parseJSONString tail).map (fun p => (c :: p.1, p.2)) := by
  rcases tail with _ | ⟨e, rest⟩
  · simp [parseJSONString, h1, h2, h3]
  · simp [parseJSONString, h1, h2, h3]

theorem goQuoteChar_printable (c : Char) (h1 : 0x20 ≤ c.toNat) (h2 : c.toNat ≤ 0x7e)
    (hq : ¬ c = '"') (hb : ¬ c = '\\') : goQuoteChar c = [c] := by
  unfold goQuoteChar
  rw [if_neg hq, if_neg hb, if_pos ⟨h1, h2⟩]

/-- Decoding a Go-quoted string of JSON-safe characters recovers the
characters exactly. -/
theorem parseJSONString_goQuoteInner (payload rest : List Char)
    (h : ∀ c ∈ payload, jsonSafeChar c = true) :
    parseJSONString (goQuoteInner payload ++ ('"' :: rest)) = some (payload, rest) := by
  induction payload with
  | nil => rfl
  | cons c cs ih =>
    have hc : (0x20 ≤ c.toNat ∧ c.toNat ≤ 0x7e) ∨ c = '\x08' ∨ c = '\t'
        ∨ c = '\n' ∨ c = '\x0c' ∨ c = '\r' := by
      have hh := h c (by simp)
      simpa [jsonSafeChar] using hh
    have hcs : ∀ x ∈ cs, jsonSafeChar x = true := fun x hx => h x (by simp [hx])
    show parseJSONString ((goQuoteChar c ++ goQuoteInner cs) ++ ('"' :: rest)) = _
    rw [List.append_assoc]
    rcases hc with ⟨h1, h2⟩ | hb8 | ht | hn | hf | hr
    · by_cases hq : c = '"'
      · subst hq
        rw [show goQuoteChar '"' = ['\\', '"'] from rfl]
        show parseJSONString ('\\' :: '"' :: (goQuoteInner cs ++ '"' :: rest)) = _
        rw [parseJSONString_esc '"' '"' _ rfl, ih hcs]
        rfl
      · by_cases hbs : c = '\\'
        · subst hbs
          rw [show goQuoteChar '\\' = ['\\', '\\'] from rfl]
          show parseJSONString ('\\' :: '\\' :: (goQuoteInner cs ++ '"' :: rest)) = _
          rw [parseJSONString_esc '\\' '\\' _ rfl, ih hcs]
          rfl
        · rw [goQuoteChar_printable c h1 h2 hq hbs]
          show parseJSONString (c :: (goQuoteInner cs ++ '"' :: rest)) = _
          rw [parseJSONString_plain c _ hq hbs (by omega), ih hcs]
          rfl
    · subst hb8
      rw [show goQuoteChar '\x08' = ['\\', 'b'] from rfl]
      show parseJSONString ('\\' :: 'b' :: (goQuoteInner cs ++ '"' :: rest)) = _
      rw [parseJSONString_esc 'b' '\x08' _ rfl, ih hcs]
      rfl
    · subst ht
      rw [show goQuoteChar '\t' = ['\\', 't'] from rfl]
      show parseJSONString ('\\' :: 't' :: (goQuoteInner cs ++ '"' :: rest)) = _
      rw [parseJSONString_esc 't' '\t' _ rfl, ih hcs]
      rfl
    · subst hn
      rw [show goQuoteChar '\n' = ['\\', 'n'] from rfl]
      show parseJSONString ('\\' :: 'n' :: (goQuoteInner cs ++ '"' :: rest)) = _
      rw [parseJSONString_esc 'n' '\n' _ rfl, ih hcs]
      rfl
    · subst hf
      rw [show goQuoteChar '\x0c' = ['\\', 'f'] from rfl]
      show parseJSONString ('\\' :: 'f' :: (goQuoteInner cs ++ '"' :: rest)) = _
      rw [parseJSONString_esc 'f' '\x0c' _ rfl, ih hcs]
      rfl
    · subst hr
      rw [show goQuoteChar '\r' = ['\\', 'r'] from rfl]
      show parseJSONString ('\\' :: 'r' :: (goQuoteInner cs ++ '"' :: rest)) = _
      rw [parseJSONString_esc 'r' '\r' _ rfl, ih hcs]
      rfl

theorem dropLiteral_self (l s : List Char) : dropLiteral l (l ++ s) = some s := by
  induction l with
  | nil => rfl
  | cons c cs ih => simp [dropLiteral, ih]

theorem execBody_shape (payload : List Char) :
    execBody payload
      = ('\x7b' :: '"' :: 'p' :: 'a' :: 'y' :: 'l' :: 'o' :: 'a' :: 'd' :: '"' :: ':'
          :: ' ' :: '"' :: []) ++ (goQuoteInner payload ++ ('"' :: ['\x7d'])) := by
  simp [execBody, goQuote, List.append_assoc]

/-- A Go-quoted JSON-safe payload decodes back out of the request body. -/
theorem parseExecBody_execBody (payload : List Char)
    (h : ∀ c ∈ payload, jsonSafeChar c = true) :
    parseExecBody (execBody payload) = some payload := by
  rw [execBody_shape]
  unfold parseExecBody
  rw [dropLiteral_self]
  show (match parseJSONString (goQuoteInner payload ++ ('"' :: ['\x7d'])) with
    | none => none
    | some p => if p.2 = ['\x7d'] then some p.1 else none) = some payload
  rw [parseJSONString_goQuoteInner payload ['\x7d'] h]
  rfl

/-- The request ExecuteFunction builds for a record (the source builds it
inline from the record's host port and the payload). -/
def workerReq (fn : Function) (payload : List Char) : WorkerRequest :=
  { url := "http://localhost:" ++ toString fn.hostPort,
    contentType := "application/json", body := execBody payload }

/-- Shared helper: against a running record with a nonzero port,
ExecuteFunction always sends exactly one request, built from the record's
port, the JSON content type and the percent-q body — whatever the network
and the response decoding then do. -/
theorem execFn_run_eq (net : WorkerRequest → Option WorkerResponse)
    (parseResp : List Char → Option (List Char))
    (db : List Function) (functionID : String) (payload : List Char) (fn : Function)
    (hfind : findFn db functionID = some fn)
    (hrun : fn.status = "running") (hport : ¬ fn.hostPort = 0) :
    ExecuteFunction net parseResp db functionID payload
      = (match net (workerReq fn payload) with
         | none => (Except.error ExecErr.transport, some (workerReq fn payload), db)
         | some resp =>
           if ¬ resp.code = 200 then
             (Except.error (ExecErr.non200 resp.code resp.body),
              some (workerReq fn payload), db)
           else
             match parseResp resp.body with
             | none =>
               (Except.error ExecErr.badResponse, some (workerReq fn payload), db)
             | some r => (Except.ok r, some (workerReq fn payload), db)) := by
  unfold ExecuteFunction
  rw [hfind]
  exact if_neg (fun hor => hor.elim (fun h1 => h1 hrun) hport)

theorem execFn_request (net : WorkerRequest → Option WorkerResponse)
    (parseResp : List Char → Option (List Char))
    (db : List Function) (functionID : String) (payload : List Char) (fn : Function)
    (hfind : findFn db functionID = some fn)
    (hrun : fn.status = "running") (hport : ¬ fn.hostPort = 0) :
    (ExecuteFunction net parseResp db functionID payload).2.1
      = some (workerReq fn payload) := by
  rw [execFn_run_eq net parseResp db functionID payload fn hfind hrun hport]
  cases hnet : net (workerReq fn payload) with
  | none => rfl
  | some resp =>
    show (if ¬ resp.code = 200 then
        (Except.error (ExecErr.non200 resp.code resp.body),
         some (workerReq fn payload), db)
      else
        match parseResp resp.body with
        | none => (Except.error ExecErr.badResponse, some (workerReq fn payload), db)
        | some r => (Except.ok r, some (workerReq fn payload), db)).2.1
      = some (workerReq fn payload)
    by_cases hcode : resp.code = 200
    · rw [if_neg (not_not_intro hcode)]
      cases parseResp resp.body <;> rfl
    · rw [if_pos hcode]
      try rfl

/-- Claim C8 amended: for every payload whose characters are ASCII-printable
or among backspace, tab, newline, formfeed and carriage return, the request
ExecuteFunction sends to a running worker carries the JSON content type and
the percent-q body, and the worker-side JSON decode of that body's payload
field returns the payload unchanged character for character.  (The original
claim over every payload fails: Go's percent-q escapes for bell, vertical
tab and other control characters are not JSON.) -/
theorem executeFunction_payload_round_trip
    (net : WorkerRequest → Option WorkerResponse)
    (parseResp : List Char → Option (List Char))
    (db : List Function) (functionID : String) (payload : List Char) (fn : Function)
    (hfind : findFn db functionID = some fn)
    (hrun : fn.status = "running") (hport : ¬ fn.hostPort = 0)
    (hsafe : ∀ c ∈ payload, jsonSafeChar c = true) :
    ∃ req, (ExecuteFunction net parseResp db functionID payload).2.1 = some req
      ∧ req.contentType = "application/json"
      ∧ req.body = execBody payload
      ∧ parseExecBody req.body = some payload :=
  ⟨_, execFn_request net parseResp db functionID payload fn hfind hrun hport,
    rfl, rfl, parseExecBody_execBody payload hsafe⟩

/-- Witness for the amended C8 on a running record and the payload "hi". -/
theorem executeFunction_payload_round_trip_witness :
    (findFn [fnRunning] "f2" = some fnRunning ∧ fnRunning.status = "running"
      ∧ ¬ fnRunning.hostPort = 0 ∧ ∀ c ∈ ['h', 'i'], jsonSafeChar c = true)
    ∧ ∃ req,
        (ExecuteFunction (fun _ => none) (fun _ => none)
            [fnRunning] "f2" ['h', 'i']).2.1 = some req
        ∧ req.contentType = "application/json"
        ∧ req.body = execBody ['h', 'i']
        ∧ parseExecBody req.body = some ['h', 'i'] :=
  ⟨⟨by decide, rfl, by decide, by decide⟩,
    executeFunction_payload_round_trip (fun _ => none) (fun _ => none)
      [fnRunning] "f2" ['h', 'i'] fnRunning (by decide) rfl (by decide) (by decide)⟩

/-- Counterexample to claim C8 as stated: for the payload consisting of the
single bell character (0x07), ExecuteFunction sends the body whose Go
percent-q escape is backslash-a, which is not a JSON escape, so the
worker-side decode of the payload field fails instead of returning the
payload: the string does not arrive unchanged. -/
theorem executeFunction_payload_bell_counterexample :
    (ExecuteFunction (fun _ => none) (fun _ => none) [fnRunning] "f2" ['\x07']).2.1
        = some { url := "http://localhost:9000",
                 contentType := "application/json", body := execBody ['\x07'] }
    ∧ parseExecBody (execBody ['\x07']) = none
    ∧ ¬ parseExecBody (execBody ['\x07']) = some ['\x07'] :=
  ⟨by decide, by decide, by decide⟩

end Faas
